import Mathlib

/-!
Verification development for the geometric-object layer of a flat-surface library:
combinatorial singularities, saddle connections and cylinders
(`flatsurf/geometry/surface_objects.py`), and the `opposite_edge` gluing relation of the
translation-surface classes (`flatsurf/geometry/translation_surface.py`).

The surface itself, the exact-arithmetic vector system and the straight-line trajectory
flow engine are external collaborators of that code; they are represented here by a
record of oracles (`SimilaritySurface`) over the rational field, while every algorithm
and control path of the two embedded files is translated directly.
-/

/-- Modelled from the spec: `wedge_product` is imported from the external polygon module
(not among the given sources); the spec describes the standard planar wedge
`v ∧ w = v₁·w₂ - v₂·w₁` used to test on which side of an edge a direction lies. -/
def wedge_product (v w : ℚ × ℚ) : ℚ := v.1 * w.2 - v.2 * w.1

/-- Modelled from the spec: `dot_product` is imported from the external polygon module;
the standard planar dot product. -/
def dot_product (v w : ℚ × ℚ) : ℚ := v.1 * w.1 + v.2 * w.2

/-- Modelled from the spec: `is_same_direction` is imported from the external polygon
module; the spec requires "positively parallel (same-direction, not merely same-line)",
i.e. zero wedge and positive dot product. -/
def is_same_direction (v w : ℚ × ℚ) : Bool :=
  decide (wedge_product v w = 0) && decide (0 < dot_product v w)

/-- The direction canonicalization performed inline in `SaddleConnection.__init__`
(lines 180-186 and again 228-234): compare the absolute values of the two components
and divide the vector by the absolute value of the first component if it is strictly
larger, by the absolute value of the second component otherwise. -/
def canon (v : ℚ × ℚ) : ℚ × ℚ :=
  if |v.1| > |v.2| then (v.1 / |v.1|, v.2 / |v.1|) else (v.1 / |v.2|, v.2 / |v.2|)

/-- Python exceptions raised by the embedded code, distinguished by raise site.
`degenerateVector`, `notASaddleConnection` and `inconsistentData` are the `ValueError`s
of `SaddleConnection.__init__` (the spec's `DegenerateVectorError`,
`NotASaddleConnectionError`, `InconsistentDataError`); `typeError` is the `TypeError`
of the `__eq__` methods; `assertionError` covers the `assert` statements;
`nameError` is what Python raises at the misspelled name `ValuError` in
`Cylinder.next`/`Cylinder.previous`; `stopIteration` is the uncaught `it.next()` on an
exhausted iterator in `Cylinder.__init__`; `fuelExhausted` is a model artifact marking
a loop of the source that has not yet terminated within the supplied fuel. -/
inductive PyErr where
  | degenerateVector
  | notASaddleConnection
  | inconsistentData
  | typeError
  | assertionError
  | nameError
  | stopIteration
  | fuelExhausted
deriving DecidableEq

/-- Decidable equality of `Except` results, so that concrete runs of the embedded
constructors can be evaluated by `decide`. -/
instance exceptDecEq {ε α : Type} [DecidableEq ε] [DecidableEq α] :
    DecidableEq (Except ε α) := fun x y =>
  match x, y with
  | .error a, .error b =>
    if h : a = b then .isTrue (congrArg Except.error h)
    else .isFalse (fun he => h (Except.error.inj he))
  | .ok a, .ok b =>
    if h : a = b then .isTrue (congrArg Except.ok h)
    else .isFalse (fun he => h (Except.ok.inj he))
  | .error _, .ok _ => .isFalse (fun he => Except.noConfusion he)
  | .ok _, .error _ => .isFalse (fun he => Except.noConfusion he)

/-- Data the external straight-line trajectory collaborator reports after
`traj.flow(limit)` succeeded and `traj.is_saddle_connection()` holds:
the terminal vertex `(tv.polygon_label(), tv.vertex())`, the raw terminal tangent
vector `tv.vector()` (before canonicalization), whether the first segment is a full
edge (`traj.segments()[0].is_edge()`), and the two holonomy vectors produced by the
similarity-composition branch of the constructor (that composition runs entirely in
the external similarity/trajectory modules, so it is part of the oracle). -/
structure FlowData where
  end_data : ℕ × ℕ
  end_direction_raw : ℚ × ℚ
  first_is_edge : Bool
  holonomy : ℚ × ℚ
  end_holonomy : ℚ × ℚ
deriving DecidableEq

/-- The surface collaborator interface consumed by the embedded code: an identity for
`==`/`is` comparisons of surfaces, the `is_finite()` flag, the `isinstance` class
flags of the surface-type hierarchy, `polygon(l).num_edges()`, `opposite_edge`,
`polygon(l).edge(e)`, the trajectory-flow oracle (returns `none` when the flowed
trajectory is not recognized as a saddle connection within the limit), and the two
tangent-vector half-turn oracles used by `Cylinder.next`/`Cylinder.previous`
(`v.clockwise_to(-v.vector())` resp. `v.counterclockwise_to(-v.vector())`, returning
the anchor `(polygon_label, vertex)` and the rotated vector). -/
structure SimilaritySurface where
  id : ℕ
  is_finite : Bool
  isDilation : Bool
  isHalfDilation : Bool
  isTranslation : Bool
  isHalfTranslation : Bool
  num_edges : ℕ → ℕ
  opposite_edge : ℕ × ℕ → ℕ × ℕ
  polygon_edge : ℕ → ℕ → ℚ × ℚ
  flow : ℕ × ℕ → ℚ × ℚ → ℕ → Option FlowData
  clockwise180 : ℕ × ℕ → ℚ × ℚ → (ℕ × ℕ) × (ℚ × ℚ)
  counterclockwise180 : ℕ × ℕ → ℚ × ℚ → (ℕ × ℕ) × (ℚ × ℚ)

/-- The vertex-successor map of `Singularity.__init__`:
`next = (edge[0], (edge[1]+1) % num_edges(edge[0]))` where `edge = opposite_edge(l, v)`. -/
def SimilaritySurface.succ (S : SimilaritySurface) (p : ℕ × ℕ) : ℕ × ℕ :=
  ((S.opposite_edge p).1, ((S.opposite_edge p).2 + 1) % S.num_edges (S.opposite_edge p).1)

/-- Outcome of `Singularity.__init__`: the frozen vertex set on success, the
`ValueError` for a missing limit on an infinite surface, the `ValueError` for a vertex
set exceeding the limit, or (model artifact) exhaustion of the fuel bounding the
source's unbounded `while` loop. -/
inductive SingResult where
  | ok (s : Finset (ℕ × ℕ))
  | missingLimit
  | limitExceeded
  | outOfFuel
deriving DecidableEq

/-- The `while start != next` loop of `Singularity.__init__` (lines 52-57): add `next`
to the visited set, fail if the set has grown beyond the limit, advance `next` by the
successor map, stop when `next` returns to `start`. -/
def singLoop (S : SimilaritySurface) (start : ℕ × ℕ) :
    Option ℕ → ℕ → ℕ × ℕ → Finset (ℕ × ℕ) → SingResult
  | _, 0, nxt, s => if start = nxt then .ok s else .outOfFuel
  | none, fuel + 1, nxt, s =>
    if start = nxt then .ok s
    else singLoop S start none fuel (S.succ nxt) (insert nxt s)
  | some lim, fuel + 1, nxt, s =>
    if start = nxt then .ok s
    else if lim < (insert nxt s).card then .limitExceeded
    else singLoop S start (some lim) fuel (S.succ nxt) (insert nxt s)

/-- `Singularity.__init__`: require a limit on an infinite surface, seed the visited set
with `(l, v)` and run the cycle-closure loop from its successor. -/
def singularityInit (S : SimilaritySurface) (l v : ℕ) (limit : Option ℕ) (fuel : ℕ) :
    SingResult :=
  if S.is_finite = false ∧ limit = none then .missingLimit
  else singLoop S (l, v) limit fuel (S.succ (l, v)) {(l, v)}

/-- A constructed `Singularity` object: the surface it lives on (by identity) and its
frozen vertex equivalence class `self._s`. -/
structure Singularity where
  surface : ℕ
  vertex_set : Finset (ℕ × ℕ)
deriving DecidableEq

/-- A constructed `SaddleConnection` object: the surface (by identity) and the six
frozen data fields. -/
structure SaddleConnection where
  surface : ℕ
  start_data : ℕ × ℕ
  direction : ℚ × ℚ
  end_data : ℕ × ℕ
  end_direction : ℚ × ℚ
  holonomy : ℚ × ℚ
  end_holonomy : ℚ × ℚ
deriving DecidableEq

/-- An arbitrary Python object, as far as the `__eq__` methods are concerned: a saddle
connection, a singularity, or anything else. -/
inductive PyObj where
  | sc (x : SaddleConnection)
  | sing (x : Singularity)
  | other (n : ℕ)

/-- The `end_direction` inference of `SaddleConnection.__init__` (lines 190-202): only
when no `end_direction` was supplied, a `DilationSurface` forces the negated canonical
direction, and a `HalfDilationSurface` with known `end_data` resolves the sign by the
wedge products of the canonical direction with the two polygon edges incident to the
end vertex. -/
def inferEndDirection (S : SimilaritySurface) (dcanon : ℚ × ℚ)
    (end_data : Option (ℕ × ℕ)) (end_direction : Option (ℚ × ℚ)) : Option (ℚ × ℚ) :=
  match end_direction with
  | some e => some e
  | none =>
    if S.isDilation then some (-dcanon)
    else
      match end_data with
      | some ed =>
        if S.isHalfDilation then
          if 0 ≤ wedge_product (S.polygon_edge ed.1 ed.2) dcanon ∧
             0 < wedge_product
                  (S.polygon_edge ed.1 ((S.num_edges ed.1 + ed.2 - 1) % S.num_edges ed.1))
                  dcanon
          then some dcanon
          else some (-dcanon)
        else none
      | none => none

/-- The `end_holonomy` inference of `SaddleConnection.__init__` (lines 204-214): only
when no `end_holonomy` was supplied but a `holonomy` was, a `TranslationSurface` takes
the negated holonomy, and then (a second independent `if`) a `HalfTranslationSurface`
matches the sign of the comparison of the raw `direction` parameter with the local
`end_direction` value. -/
def inferEndHolonomy (S : SimilaritySurface) (direction : ℚ × ℚ)
    (end_direction : Option (ℚ × ℚ)) (holonomy end_holonomy : Option (ℚ × ℚ)) :
    Option (ℚ × ℚ) :=
  match end_holonomy, holonomy with
  | none, some h =>
    if S.isHalfTranslation then
      if end_direction = some direction then some h else some (-h)
    else if S.isTranslation then some (-h) else none
  | eh, _ => eh

/-- The condition of line 216 deciding whether the constructor flows a trajectory:
some of `end_data`, (post-inference) `end_direction`, `holonomy`, (post-inference)
`end_holonomy` is still missing, or `check` was requested. -/
def flowNeeded (S : SimilaritySurface) (dcanon : ℚ × ℚ) (end_data : Option (ℕ × ℕ))
    (end_direction : Option (ℚ × ℚ)) (direction : ℚ × ℚ)
    (holonomy end_holonomy : Option (ℚ × ℚ)) (check : Bool) : Bool :=
  end_data.isNone || (inferEndDirection S dcanon end_data end_direction).isNone ||
    holonomy.isNone ||
    (inferEndHolonomy S direction (inferEndDirection S dcanon end_data end_direction)
      holonomy end_holonomy).isNone || check

/-- The holonomy the constructor computes from the flowed trajectory (lines 239-253):
if the first segment is a full edge, exactly the polygon edge at the start vertex;
otherwise the similarity-composition value reported by the trajectory oracle. -/
def computedHolonomy (S : SimilaritySurface) (start_data : ℕ × ℕ) (fd : FlowData) :
    ℚ × ℚ :=
  if fd.first_is_edge then S.polygon_edge start_data.1 start_data.2 else fd.holonomy

/-- The end holonomy the constructor computes from the flowed trajectory: the polygon
edge at the computed end vertex in the single-edge case, otherwise the
similarity-composition value reported by the trajectory oracle. -/
def computedEndHolonomy (S : SimilaritySurface) (fd : FlowData) : ℚ × ℚ :=
  if fd.first_is_edge then S.polygon_edge fd.end_data.1 fd.end_data.2 else fd.end_holonomy

/-- The trusted-input branch of `SaddleConnection.__init__` (lines 268-272): store the
four supplied-or-inferred values verbatim.  The `assertionError` branch is unreachable:
this runs only when the flow condition is false, which forces all four options to be
`some`. -/
def storeSupplied (sid : ℕ) (sd : ℕ × ℕ) (dcanon : ℚ × ℚ) (ed : Option (ℕ × ℕ))
    (edir hol ehol : Option (ℚ × ℚ)) : Except PyErr SaddleConnection :=
  match ed, edir, hol, ehol with
  | some a, some b, some c, some d => .ok ⟨sid, sd, dcanon, a, b, c, d⟩
  | _, _, _, _ => .error .assertionError

/-- `SaddleConnection.__init__`. Reject a zero direction, canonicalize, run the two
inference steps, then either flow a trajectory — failing on a non-saddle-connection
flow and on every supplied-or-inferred value that disagrees with the computed one —
or, when nothing is missing and no check was requested, store the supplied values
verbatim.  (The `print` statements preceding the holonomy `ValueError` are I/O and are
not modelled.) -/
def mkSaddleConnection (S : SimilaritySurface) (start_data : ℕ × ℕ) (direction : ℚ × ℚ)
    (end_data : Option (ℕ × ℕ)) (end_direction : Option (ℚ × ℚ))
    (holonomy end_holonomy : Option (ℚ × ℚ)) (check : Bool) (limit : ℕ) :
    Except PyErr SaddleConnection :=
  if direction = ((0 : ℚ), (0 : ℚ)) then .error .degenerateVector
  else if flowNeeded S (canon direction) end_data end_direction direction holonomy
      end_holonomy check = true then
    match S.flow start_data (canon direction) limit with
    | none => .error .notASaddleConnection
    | some fd =>
      if end_data ≠ none ∧ end_data ≠ some fd.end_data then .error .inconsistentData
      else if inferEndDirection S (canon direction) end_data end_direction ≠ none ∧
          inferEndDirection S (canon direction) end_data end_direction ≠
            some (canon fd.end_direction_raw) then .error .inconsistentData
      else if holonomy ≠ none ∧ holonomy ≠ some (computedHolonomy S start_data fd) then
        .error .inconsistentData
      else if inferEndHolonomy S direction
            (inferEndDirection S (canon direction) end_data end_direction)
            holonomy end_holonomy ≠ none ∧
          inferEndHolonomy S direction
            (inferEndDirection S (canon direction) end_data end_direction)
            holonomy end_holonomy ≠ some (computedEndHolonomy S fd) then
        .error .inconsistentData
      else
        .ok ⟨S.id, start_data, canon direction, fd.end_data, canon fd.end_direction_raw,
          computedHolonomy S start_data fd, computedEndHolonomy S fd⟩
  else
    storeSupplied S.id start_data (canon direction) end_data
      (inferEndDirection S (canon direction) end_data end_direction) holonomy
      (inferEndHolonomy S direction
        (inferEndDirection S (canon direction) end_data end_direction)
        holonomy end_holonomy)

/-- `SaddleConnection.invert`: rebuild with start/end data, directions and holonomies
swapped, `check=False` and the default limit. -/
def SaddleConnection.invert (S : SimilaritySurface) (sc : SaddleConnection) :
    Except PyErr SaddleConnection :=
  mkSaddleConnection S sc.end_data sc.end_direction (some sc.start_data)
    (some sc.direction) (some sc.end_holonomy) (some sc.holonomy) false 1000

/-- `SaddleConnection.__eq__`: identity shortcut, `TypeError` on anything that is not a
saddle connection, then surface, direction and start data in that order; end data and
holonomies are never consulted. -/
def SaddleConnection.eq (a : SaddleConnection) (o : PyObj) : Except PyErr Bool :=
  match o with
  | .sc b =>
    if a = b then .ok true
    else if ¬a.surface = b.surface then .ok false
    else if ¬a.direction = b.direction then .ok false
    else if ¬a.start_data = b.start_data then .ok false
    else .ok true
  | _ => .error .typeError

/-- `Singularity.__eq__`: identity shortcut, `TypeError` on anything that is not a
singularity, surface comparison, then the vertex sets. -/
def Singularity.eq (a : Singularity) (o : PyObj) : Except PyErr Bool :=
  match o with
  | .sing b =>
    if a = b then .ok true
    else if ¬a.surface = b.surface then .ok false
    else .ok (decide (a.vertex_set = b.vertex_set))
  | _ => .error .typeError

/-- `Singularity.__ne__` is `not self == other`, propagating any exception of `__eq__`. -/
def Singularity.ne (a : Singularity) (o : PyObj) : Except PyErr Bool :=
  (Singularity.eq a o).map (fun b => !b)

/-- `Singularity.__hash__` is `hash(self._s)`: an arbitrary hash `h` of the frozen
vertex set alone — the surface is deliberately not part of the hash. -/
def Singularity.hashWith (h : Finset (ℕ × ℕ) → ℤ) (a : Singularity) : ℤ :=
  h a.vertex_set

/-- A constructed `Cylinder` object: the surface, the frozen boundary (as the list the
`frozenset` iterates over), the two boundary components and the transversal connection. -/
structure Cylinder where
  s : SimilaritySurface
  boundary : List SaddleConnection
  boundary1 : Finset SaddleConnection
  boundary2 : Finset SaddleConnection
  across : SaddleConnection

/-- The search of `Cylinder.next` (lines 499-505): rotate the tangent vector at the end
point by a half turn clockwise, then return the first boundary element whose
`start_data` is the rotated tangent's anchor and whose `direction` is positively
parallel to its vector. -/
def nextMatch (S : SimilaritySurface) (bd : List SaddleConnection)
    (sc : SaddleConnection) : Option SaddleConnection :=
  let a := S.clockwise180 sc.end_data sc.end_direction
  bd.find? (fun sc2 => sc2.start_data == a.1 && is_same_direction sc2.direction a.2)

/-- The search of `Cylinder.previous` (lines 514-520): rotate the tangent vector at the
start point by a half turn counterclockwise, then return the first boundary element
whose `end_data` is the rotated tangent's anchor and whose `end_direction` is
positively parallel to its vector. -/
def prevMatch (S : SimilaritySurface) (bd : List SaddleConnection)
    (sc : SaddleConnection) : Option SaddleConnection :=
  let a := S.counterclockwise180 sc.start_data sc.direction
  bd.find? (fun sc2 => sc2.end_data == a.1 && is_same_direction sc2.end_direction a.2)

/-- `Cylinder.next`: assert membership in the boundary, search; when no element
matches, the source executes `raise ValuError(...)` — `ValuError` is an undefined
name, so Python raises `NameError` at that point. -/
def Cylinder.next (c : Cylinder) (sc : SaddleConnection) : Except PyErr SaddleConnection :=
  if sc ∈ c.boundary then
    match nextMatch c.s c.boundary sc with
    | some sc2 => .ok sc2
    | none => .error .nameError
  else .error .assertionError

/-- `Cylinder.previous`: symmetric to `Cylinder.next`, with the same misspelled
`ValuError` in the no-match branch. -/
def Cylinder.previous (c : Cylinder) (sc : SaddleConnection) :
    Except PyErr SaddleConnection :=
  if sc ∈ c.boundary then
    match prevMatch c.s c.boundary sc with
    | some sc2 => .ok sc2
    | none => .error .nameError
  else .error .assertionError

/-- The helper `self.next(sc)` as called during `Cylinder.__init__`, before the
components exist: the membership assert plus the search over the boundary list. -/
def nextOnBoundary (S : SimilaritySurface) (bd : List SaddleConnection)
    (sc : SaddleConnection) : Except PyErr SaddleConnection :=
  if sc ∈ bd then
    match nextMatch S bd sc with
    | some sc2 => .ok sc2
    | none => .error .nameError
  else .error .assertionError

/-- One boundary-partition loop of `Cylinder.__init__`
(`while sc2 != sc: component.add(sc2); sc2 = self.next(sc2)`), bounded by fuel. -/
def cylLoop (S : SimilaritySurface) (bd : List SaddleConnection)
    (base : SaddleConnection) :
    ℕ → SaddleConnection → Finset SaddleConnection →
    Except PyErr (Finset SaddleConnection)
  | 0, cur, acc => if cur = base then .ok acc else .error .fuelExhausted
  | fuel + 1, cur, acc =>
    if cur = base then .ok acc
    else do
      let cur2 ← nextOnBoundary S bd cur
      cylLoop S bd base fuel cur2 (insert cur acc)

/-- `Cylinder.__init__`: at least two boundary saddle connections, all on one surface;
partition the boundary into the `next`-cycle of the first element and the
`next`-cycle of the first remaining element (an empty remainder hits the uncaught
`it.next()` `StopIteration`); assert no leftover elements; assert `across` lies on the
same surface. -/
def mkCylinder (S : SimilaritySurface) (boundary : List SaddleConnection)
    (across : SaddleConnection) (fuel : ℕ) : Except PyErr Cylinder :=
  if boundary.length < 2 then .error .assertionError
  else if ¬(∀ sc ∈ boundary, sc.surface = S.id) then .error .assertionError
  else
    match boundary with
    | [] => .error .assertionError
    | sc :: _ => do
      let bd := boundary.dedup
      let n1 ← nextOnBoundary S bd sc
      let b1 ← cylLoop S bd sc fuel n1 {sc}
      match bd.filter (fun x => decide (x ∉ b1)) with
      | [] => .error .stopIteration
      | sc2 :: _ => do
        let n2 ← nextOnBoundary S bd sc2
        let b2 ← cylLoop S bd sc2 fuel n2 {sc2}
        if ¬(bd.toFinset \ (b1 ∪ b2) = ∅) then .error .assertionError
        else if ¬across.surface = S.id then .error .assertionError
        else .ok ⟨S, bd, b1, b2, across⟩

/-- `Cylinder.holonomy` (lines 523-542): assert a translation surface, sum the
holonomies of the first boundary component, assert that adding the sum over the second
component gives zero, and return the first sum. -/
def Cylinder.holonomy (c : Cylinder) : Except PyErr (ℚ × ℚ) :=
  if c.s.isTranslation = false then .error .assertionError
  else
    let total := Finset.sum c.boundary1 (fun sc => sc.holonomy)
    let total2 := Finset.sum c.boundary2 (fun sc => sc.holonomy)
    if ¬(total + total2 = 0) then .error .assertionError
    else .ok total

/-- An `Origami` (translation_surface.py): the four cardinal permutations
`self._perms = [uu, r, u, rr]` over an abstract label domain; `__init__` validates
that `rr`/`uu` are two-sided inverses of `r`/`u`. -/
structure Origami (α : Type) where
  r : α → α
  u : α → α
  rr : α → α
  uu : α → α

/-- `Origami.opposite_edge` (lines 194-199): reject an edge index outside `{0,1,2,3}`,
otherwise return `(self._perms[e](p), (e+2) % 4)`. -/
def Origami.opposite_edge {α : Type} (o : Origami α) (p : α) (e : ℕ) :
    Option (α × ℕ) :=
  match e with
  | 0 => some (o.uu p, 2)
  | 1 => some (o.r p, 3)
  | 2 => some (o.u p, 0)
  | 3 => some (o.rr p, 1)
  | _ => none

/-- A 2×2 matrix over the base field, with the operations the
`MinimalTranslationCover` labels need (`m.set_immutable()` is state bookkeeping and
has no mathematical content). -/
structure M2 where
  a : ℚ
  b : ℚ
  c : ℚ
  d : ℚ
deriving DecidableEq

def M2.mul (x y : M2) : M2 :=
  ⟨x.a * y.a + x.b * y.c, x.a * y.b + x.b * y.d,
   x.c * y.a + x.d * y.c, x.c * y.b + x.d * y.d⟩

def M2.one : M2 := ⟨1, 0, 0, 1⟩

def M2.det (x : M2) : ℚ := x.a * x.d - x.b * x.c

/-- The Sage matrix inverse `~m`, written out by the adjugate formula. -/
def M2.inv (x : M2) : M2 :=
  ⟨x.d / x.det, -x.b / x.det, -x.c / x.det, x.a / x.det⟩

/-- The base surface as consumed by `MinimalTranslationCover`: its `opposite_edge`
relation and its `edge_matrix`. -/
structure SimilaritySurfaceData where
  opposite_edge : ℕ × ℕ → ℕ × ℕ
  edge_matrix : ℕ → ℕ → M2

/-- `MinimalTranslationCover.opposite_edge` (lines 100-106): a label is a pair
`(polygon, matrix)`; across the gluing the polygon part follows the base surface and
the matrix part becomes `~edge_matrix(pp, e) * m`. -/
def MinimalTranslationCover.opposite_edge (ss : SimilaritySurfaceData)
    (p : ℕ × M2) (e : ℕ) : (ℕ × M2) × ℕ :=
  ((( ss.opposite_edge (p.1, e)).1,
    (M2.inv (ss.edge_matrix p.1 e)).mul p.2),
   (ss.opposite_edge (p.1, e)).2)

/-- A surface record with inert oracle fields, used as the base of the concrete
witness surfaces below. -/
def baseSurface : SimilaritySurface where
  id := 0
  is_finite := true
  isDilation := false
  isHalfDilation := false
  isTranslation := false
  isHalfTranslation := false
  num_edges := fun _ => 4
  opposite_edge := fun p => p
  polygon_edge := fun _ _ => ((0 : ℚ), (0 : ℚ))
  flow := fun _ _ _ => none
  clockwise180 := fun _ _ => ((0, 0), ((0 : ℚ), (0 : ℚ)))
  counterclockwise180 := fun _ _ => ((0, 0), ((0 : ℚ), (0 : ℚ)))

/-- A square torus: one square, opposite edges glued (`opposite_edge (l, e) = (l, (e+2) % 4)`). -/
def torusSurface : SimilaritySurface :=
  { baseSurface with opposite_edge := fun p => (p.1, (p.2 + 2) % 4) }

/-- The vertex orbit of `(0, 0)` on the square torus, listed in the insertion order
of the closure loop. -/
def torusOrbit : Finset (ℕ × ℕ) := {(0, 1), (0, 2), (0, 3), (0, 0)}

/-- The square-torus gluing data presented as an infinite surface. -/
def infiniteSurface : SimilaritySurface := { torusSurface with is_finite := false }

/-- Flow data reported by the trajectory oracle of `flowSurface`. -/
def flowDataW : FlowData where
  end_data := (0, 1)
  end_direction_raw := ((-1 : ℚ), (0 : ℚ))
  first_is_edge := false
  holonomy := ((2 : ℚ), (0 : ℚ))
  end_holonomy := ((-2 : ℚ), (0 : ℚ))

/-- A surface whose trajectory oracle recognizes the ray from vertex `(0, 0)` in
direction `(1, 0)` as a saddle connection with the data of `flowDataW`. -/
def flowSurface : SimilaritySurface :=
  { baseSurface with
    id := 7
    flow := fun sd d _ =>
      if sd = (0, 0) ∧ d = ((1 : ℚ), (0 : ℚ)) then some flowDataW else none }

/-- A translation surface whose half-turn tangent oracle sends the end of each of the
two saddle connections `cylScA`/`cylScB` back to its own start, so that each is a
one-element boundary cycle of a cylinder. -/
def cylSurface : SimilaritySurface :=
  { baseSurface with
    id := 9
    isTranslation := true
    clockwise180 := fun p _ =>
      if p = (0, 1) then ((0, 0), ((1 : ℚ), (0 : ℚ)))
      else if p = (5, 6) then ((5, 5), ((1 : ℚ), (0 : ℚ)))
      else ((99, 99), ((0 : ℚ), (0 : ℚ))) }

/-- A saddle connection on `cylSurface` from vertex `(0, 0)` with holonomy `(1, 0)`. -/
def cylScA : SaddleConnection :=
  ⟨9, (0, 0), ((1 : ℚ), (0 : ℚ)), (0, 1), ((-1 : ℚ), (0 : ℚ)),
   ((1 : ℚ), (0 : ℚ)), ((-1 : ℚ), (0 : ℚ))⟩

/-- A saddle connection on `cylSurface` from vertex `(5, 5)`, also with holonomy
`(1, 0)` — together with `cylScA` it bounds a "cylinder" whose two boundary holonomy
sums are not additive inverses. -/
def cylScB : SaddleConnection :=
  ⟨9, (5, 5), ((1 : ℚ), (0 : ℚ)), (5, 6), ((-1 : ℚ), (0 : ℚ)),
   ((1 : ℚ), (0 : ℚ)), ((-1 : ℚ), (0 : ℚ))⟩

/-- Like `cylScB` but with the opposite holonomy, giving a balanced cylinder. -/
def cylScC : SaddleConnection :=
  ⟨9, (5, 5), ((1 : ℚ), (0 : ℚ)), (5, 6), ((-1 : ℚ), (0 : ℚ)),
   ((-1 : ℚ), (0 : ℚ)), ((1 : ℚ), (0 : ℚ))⟩

/-- A balanced concrete cylinder: the two one-element boundary components carry
holonomies `(1, 0)` and `(-1, 0)`. -/
def cylBalanced : Cylinder :=
  ⟨cylSurface, [cylScA, cylScC], {cylScA}, {cylScC}, cylScA⟩

/-- A surface whose half-turn oracles anchor every rotated tangent at the vertex
`(42, 42)`, matching no boundary element. -/
def noMatchSurface : SimilaritySurface :=
  { cylSurface with
    clockwise180 := fun _ _ => ((42, 42), ((1 : ℚ), (0 : ℚ)))
    counterclockwise180 := fun _ _ => ((42, 42), ((1 : ℚ), (0 : ℚ))) }

/-- A cylinder whose `next`/`previous` searches find no match. -/
def noMatchCylinder : Cylinder :=
  ⟨noMatchSurface, [cylScA], {cylScA}, ∅, cylScA⟩

/-- The identity origami over `ℕ`. -/
def idOrigami : Origami ℕ := ⟨id, id, id, id⟩

/-- A base surface for the minimal translation cover whose gluings are all trivial. -/
def trivialCoverBase : SimilaritySurfaceData :=
  ⟨fun pe => pe, fun _ _ => M2.one⟩

/-- The direction input of the canonicalization witnesses. -/
def vWitness : ℚ × ℚ := ((-2 : ℚ), (1 : ℚ))

/-- The saddle connection the trusted-input path builds on `flowSurface` from the
direction `(-2, 1)`. -/
def scCanonW : SaddleConnection :=
  ⟨7, (0, 0), ((-1 : ℚ), (1 : ℚ) / 2), (0, 1), ((1 : ℚ), (0 : ℚ)),
   ((1 : ℚ), (1 : ℚ)), ((1 : ℚ), (1 : ℚ))⟩

/-- A fast-path saddle connection on `flowSurface` with all fields nonzero, used to
exercise `invert`. -/
def scInvW : SaddleConnection :=
  ⟨7, (0, 0), ((1 : ℚ), (0 : ℚ)), (0, 1), ((-1 : ℚ), (0 : ℚ)),
   ((2 : ℚ), (0 : ℚ)), ((-2 : ℚ), (0 : ℚ))⟩

/-- A fast-path saddle connection on `flowSurface` whose stored `end_direction` is the
zero vector — the unvalidated trusted-input path accepts it. -/
def scZeroEndW : SaddleConnection :=
  ⟨7, (0, 0), ((1 : ℚ), (0 : ℚ)), (0, 1), ((0 : ℚ), (0 : ℚ)),
   ((2 : ℚ), (0 : ℚ)), ((-2 : ℚ), (0 : ℚ))⟩

/-- A singularity on surface `0`. -/
def singW1 : Singularity := ⟨0, {(0, 0), (0, 1)}⟩

/-- A singularity with the same vertex set as `singW1` but on another surface. -/
def singW2 : Singularity := ⟨1, {(0, 0), (0, 1)}⟩

lemma snd_ne_zero_of_ne {v : ℚ × ℚ} (hv : v ≠ ((0 : ℚ), (0 : ℚ)))
    (h2 : |v.1| ≤ |v.2|) : v.2 ≠ 0 := by
  intro h0
  rw [h0, abs_zero] at h2
  exact hv (Prod.ext (abs_eq_zero.mp (le_antisymm h2 (abs_nonneg v.1))) h0)

lemma canon_abs {v : ℚ × ℚ} (hv : v ≠ ((0 : ℚ), (0 : ℚ))) :
    if |v.1| > |v.2| then |(canon v).1| = 1 else |(canon v).2| = 1 := by
  by_cases h : |v.1| > |v.2|
  · rw [if_pos h]
    have h1 : |v.1| ≠ 0 := ne_of_gt (lt_of_le_of_lt (abs_nonneg v.2) h)
    simp only [canon, if_pos h]
    rw [abs_div, abs_abs]
    exact div_self h1
  · rw [if_neg h]
    have h2 : v.2 ≠ 0 := snd_ne_zero_of_ne hv (not_lt.mp h)
    have h1 : |v.2| ≠ 0 := abs_ne_zero.mpr h2
    simp only [canon, if_neg h]
    rw [abs_div, abs_abs]
    exact div_self h1

lemma canon_ne_zero {v : ℚ × ℚ} (hv : v ≠ ((0 : ℚ), (0 : ℚ))) :
    canon v ≠ ((0 : ℚ), (0 : ℚ)) := by
  by_cases h : |v.1| > |v.2|
  · have h1 : v.1 ≠ 0 := by
      intro h0
      rw [h0, abs_zero] at h
      exact absurd (abs_nonneg v.2) (not_le.mpr h)
    simp only [canon, if_pos h]
    intro hc
    exact h1 (by simpa [div_eq_zero_iff, abs_eq_zero] using congrArg Prod.fst hc)
  · have h2 : v.2 ≠ 0 := snd_ne_zero_of_ne hv (not_lt.mp h)
    simp only [canon, if_neg h]
    intro hc
    exact h2 (by simpa [div_eq_zero_iff, abs_eq_zero] using congrArg Prod.snd hc)

lemma canon_idem {v : ℚ × ℚ} (hv : v ≠ ((0 : ℚ), (0 : ℚ))) :
    canon (canon v) = canon v := by
  by_cases h : |v.1| > |v.2|
  · have h0 : (0 : ℚ) < |v.1| := lt_of_le_of_lt (abs_nonneg v.2) h
    have hc : canon v = (v.1 / |v.1|, v.2 / |v.1|) := by rw [canon, if_pos h]
    have ha : |(canon v).1| = 1 := by
      rw [hc]; rw [abs_div, abs_abs]; exact div_self (ne_of_gt h0)
    have hb : |(canon v).2| < 1 := by
      rw [hc]
      rw [abs_div, abs_abs]
      exact (div_lt_one h0).mpr h
    rw [canon, if_pos (by rw [ha]; exact hb)]
    rw [ha, div_one, div_one]
  · have h2 : v.2 ≠ 0 := snd_ne_zero_of_ne hv (not_lt.mp h)
    have h0 : (0 : ℚ) < |v.2| := abs_pos.mpr h2
    have hc : canon v = (v.1 / |v.2|, v.2 / |v.2|) := by rw [canon, if_neg h]
    have ha : |(canon v).2| = 1 := by
      rw [hc]; rw [abs_div, abs_abs]; exact div_self (ne_of_gt h0)
    have hb : ¬|(canon v).1| > |(canon v).2| := by
      rw [ha, hc]
      rw [abs_div, abs_abs]
      exact not_lt.mpr ((div_le_one h0).mpr (not_lt.mp h))
    rw [canon, if_neg hb]
    rw [ha, div_one, div_one]

lemma isNone_false_exists {α : Type} {o : Option α} (h : o.isNone = false) :
    ∃ a, o = some a := by
  cases o with
  | none => simp at h
  | some a => exact ⟨a, rfl⟩

lemma flowNeeded_false_parts {S : SimilaritySurface} {dcanon : ℚ × ℚ}
    {ed : Option (ℕ × ℕ)} {edir : Option (ℚ × ℚ)} {dir : ℚ × ℚ}
    {hol ehol : Option (ℚ × ℚ)} {chk : Bool}
    (hf : flowNeeded S dcanon ed edir dir hol ehol chk = false) :
    (∃ a, ed = some a) ∧ (∃ b, inferEndDirection S dcanon ed edir = some b) ∧
    (∃ c, hol = some c) ∧
    (∃ d, inferEndHolonomy S dir (inferEndDirection S dcanon ed edir) hol ehol = some d) ∧
    chk = false := by
  simp only [flowNeeded, Bool.or_eq_false_iff] at hf
  obtain ⟨⟨⟨⟨h1, h2⟩, h3⟩, h4⟩, h5⟩ := hf
  exact ⟨isNone_false_exists h1, isNone_false_exists h2, isNone_false_exists h3,
    isNone_false_exists h4, h5⟩

/-- On the trusted-input fast path (nothing missing, `check=False`) the constructor
stores the supplied values verbatim, after canonicalizing the direction. -/
lemma mk_fast_eq {S : SimilaritySurface} {sd : ℕ × ℕ} {dir : ℚ × ℚ} {a : ℕ × ℕ}
    {b c d : ℚ × ℚ} {ed : Option (ℕ × ℕ)} {edir hol ehol : Option (ℚ × ℚ)}
    {chk : Bool} {lim : ℕ}
    (hd : dir ≠ ((0 : ℚ), (0 : ℚ)))
    (hf : flowNeeded S (canon dir) ed edir dir hol ehol chk = false)
    (hed : ed = some a)
    (hedir : inferEndDirection S (canon dir) ed edir = some b)
    (hhol : hol = some c)
    (hehol : inferEndHolonomy S dir (inferEndDirection S (canon dir) ed edir)
      hol ehol = some d) :
    mkSaddleConnection S sd dir ed edir hol ehol chk lim =
      .ok ⟨S.id, sd, canon dir, a, b, c, d⟩ := by
  subst hed
  subst hhol
  rw [mkSaddleConnection, if_neg hd, if_neg (by simp [hf])]
  rw [hehol, hedir]
  rfl

/-- Any successful construction has the surface, start data and canonicalized
direction stored, and a nonzero input direction. -/
lemma mk_ok_inv {S : SimilaritySurface} {sd : ℕ × ℕ} {dir : ℚ × ℚ}
    {ed : Option (ℕ × ℕ)} {edir hol ehol : Option (ℚ × ℚ)} {chk : Bool} {lim : ℕ}
    {sc : SaddleConnection}
    (hok : mkSaddleConnection S sd dir ed edir hol ehol chk lim = .ok sc) :
    dir ≠ ((0 : ℚ), (0 : ℚ)) ∧ sc.surface = S.id ∧ sc.start_data = sd ∧
      sc.direction = canon dir := by
  by_cases hd : dir = ((0 : ℚ), (0 : ℚ))
  · rw [mkSaddleConnection, if_pos hd] at hok
    simp at hok
  · refine ⟨hd, ?_⟩
    rw [mkSaddleConnection, if_neg hd] at hok
    by_cases hf : flowNeeded S (canon dir) ed edir dir hol ehol chk = true
    · rw [if_pos hf] at hok
      cases hflow : S.flow sd (canon dir) lim with
      | none => rw [hflow] at hok; simp at hok
      | some fd =>
        rw [hflow] at hok
        dsimp only at hok
        split_ifs at hok
        rw [Except.ok.injEq] at hok
        subst hok
        exact ⟨rfl, rfl, rfl⟩
    · rw [if_neg hf] at hok
      obtain ⟨⟨a, ha⟩, ⟨b, hb⟩, ⟨c, hc⟩, ⟨d, hd2⟩, -⟩ :=
        flowNeeded_false_parts (by simpa using hf)
      subst ha
      subst hc
      rw [hd2, hb] at hok
      dsimp only [storeSupplied] at hok
      obtain rfl := (Except.ok.inj hok).symm
      exact ⟨rfl, rfl, rfl⟩

/-- On the flow path with a successful flow, a successful construction stores exactly
the computed end data, canonicalized end direction and computed holonomies, and every
check must have passed. -/
lemma mk_flow_ok_inv {S : SimilaritySurface} {sd : ℕ × ℕ} {dir : ℚ × ℚ}
    {ed : Option (ℕ × ℕ)} {edir hol ehol : Option (ℚ × ℚ)} {chk : Bool} {lim : ℕ}
    {fd : FlowData} {sc : SaddleConnection}
    (hd : dir ≠ ((0 : ℚ), (0 : ℚ)))
    (hf : flowNeeded S (canon dir) ed edir dir hol ehol chk = true)
    (hflow : S.flow sd (canon dir) lim = some fd)
    (hok : mkSaddleConnection S sd dir ed edir hol ehol chk lim = .ok sc) :
    sc = ⟨S.id, sd, canon dir, fd.end_data, canon fd.end_direction_raw,
        computedHolonomy S sd fd, computedEndHolonomy S fd⟩ ∧
    ¬(ed ≠ none ∧ ed ≠ some fd.end_data) ∧
    ¬(inferEndDirection S (canon dir) ed edir ≠ none ∧
      inferEndDirection S (canon dir) ed edir ≠ some (canon fd.end_direction_raw)) ∧
    ¬(hol ≠ none ∧ hol ≠ some (computedHolonomy S sd fd)) ∧
    ¬(inferEndHolonomy S dir (inferEndDirection S (canon dir) ed edir) hol ehol ≠ none ∧
      inferEndHolonomy S dir (inferEndDirection S (canon dir) ed edir) hol ehol ≠
        some (computedEndHolonomy S fd)) := by
  rw [mkSaddleConnection, if_neg hd, if_pos hf, hflow] at hok
  dsimp only at hok
  split_ifs at hok with h1 h2 h3 h4
  rw [Except.ok.injEq] at hok
  exact ⟨hok.symm, h1, h2, h3, h4⟩

/-- On the flow path, a failing flow or any failing comparison yields the
corresponding error. -/
lemma mk_flow_error {S : SimilaritySurface} {sd : ℕ × ℕ} {dir : ℚ × ℚ}
    {ed : Option (ℕ × ℕ)} {edir hol ehol : Option (ℚ × ℚ)} {chk : Bool} {lim : ℕ}
    {fd : FlowData}
    (hd : dir ≠ ((0 : ℚ), (0 : ℚ)))
    (hf : flowNeeded S (canon dir) ed edir dir hol ehol chk = true)
    (hflow : S.flow sd (canon dir) lim = some fd)
    (hbad : (ed ≠ none ∧ ed ≠ some fd.end_data) ∨
      (inferEndDirection S (canon dir) ed edir ≠ none ∧
        inferEndDirection S (canon dir) ed edir ≠ some (canon fd.end_direction_raw)) ∨
      (hol ≠ none ∧ hol ≠ some (computedHolonomy S sd fd)) ∨
      (inferEndHolonomy S dir (inferEndDirection S (canon dir) ed edir) hol ehol ≠ none ∧
        inferEndHolonomy S dir (inferEndDirection S (canon dir) ed edir) hol ehol ≠
          some (computedEndHolonomy S fd))) :
    mkSaddleConnection S sd dir ed edir hol ehol chk lim = .error .inconsistentData := by
  rw [mkSaddleConnection, if_neg hd, if_pos hf, hflow]
  dsimp only
  split_ifs with h1 h2 h3 h4
  · rfl
  · rfl
  · rfl
  · rfl
  · rcases hbad with h | h | h | h
    · exact absurd h h1
    · exact absurd h h2
    · exact absurd h h3
    · exact absurd h h4

/-- The trusted-input construction on `flowSurface` from direction `(-2, 1)` succeeds
and produces `scCanonW`. -/
lemma mk_scCanonW :
    mkSaddleConnection flowSurface (0, 0) vWitness (some (0, 1))
      (some ((1 : ℚ), (0 : ℚ))) (some ((1 : ℚ), (1 : ℚ))) (some ((1 : ℚ), (1 : ℚ)))
      false 1000 = .ok scCanonW := by
  rw [mkSaddleConnection, if_neg (by norm_num [vWitness]),
    if_neg (by norm_num [flowNeeded, inferEndDirection, inferEndHolonomy, flowSurface,
      baseSurface])]
  rw [show inferEndDirection flowSurface (canon vWitness) (some (0, 1))
      (some ((1 : ℚ), (0 : ℚ))) = some ((1 : ℚ), (0 : ℚ)) from rfl]
  rw [show inferEndHolonomy flowSurface vWitness (some ((1 : ℚ), (0 : ℚ)))
      (some ((1 : ℚ), (1 : ℚ))) (some ((1 : ℚ), (1 : ℚ))) = some ((1 : ℚ), (1 : ℚ))
      from rfl]
  rw [storeSupplied]
  rw [show canon vWitness = ((-1 : ℚ), (1 : ℚ) / 2) by norm_num [canon, vWitness]]
  rfl

/-- Claim C1 (counterexample): supplying the nonzero direction `(-2, 1)` to the
constructor stores `(-1, 1/2)`: the component of larger absolute value becomes `-1`,
not exactly `1` as the claim states — the code divides by the absolute value, keeping
the sign. -/
theorem canonical_direction_sign_counterexample :
    (mkSaddleConnection flowSurface (0, 0) vWitness (some (0, 1))
        (some ((1 : ℚ), (0 : ℚ))) (some ((1 : ℚ), (1 : ℚ))) (some ((1 : ℚ), (1 : ℚ)))
        false 1000) = .ok scCanonW ∧
    |vWitness.1| > |vWitness.2| ∧ scCanonW.direction.1 = -1 ∧
    ¬scCanonW.direction.1 = 1 :=
  ⟨mk_scCanonW, by norm_num [vWitness], by norm_num [scCanonW], by norm_num [scCanonW]⟩

/-- Claim C1 (amended): for every nonzero direction supplied to the constructor, the
stored vector is the input divided componentwise by the absolute value of its larger
component (by the second component's absolute value on ties), so that the larger
component's absolute value becomes exactly 1 (its sign is preserved); the terminal
direction obtained from the trajectory flow is canonicalized by the same rule. -/
theorem canonical_direction_scaling (S : SimilaritySurface) (sd : ℕ × ℕ) (v : ℚ × ℚ)
    (ed : Option (ℕ × ℕ)) (edir hol ehol : Option (ℚ × ℚ)) (chk : Bool) (lim : ℕ)
    (sc : SaddleConnection)
    (hok : mkSaddleConnection S sd v ed edir hol ehol chk lim = .ok sc) :
    sc.direction = (if |v.1| > |v.2| then (v.1 / |v.1|, v.2 / |v.1|)
      else (v.1 / |v.2|, v.2 / |v.2|)) ∧
    (if |v.1| > |v.2| then |sc.direction.1| = 1 else |sc.direction.2| = 1) ∧
    (∀ fd, flowNeeded S (canon v) ed edir v hol ehol chk = true →
      S.flow sd (canon v) lim = some fd →
      sc.end_direction = canon fd.end_direction_raw ∧
      (fd.end_direction_raw ≠ ((0 : ℚ), (0 : ℚ)) →
        (if |fd.end_direction_raw.1| > |fd.end_direction_raw.2|
         then |sc.end_direction.1| = 1 else |sc.end_direction.2| = 1))) := by
  obtain ⟨hv, -, -, hdir⟩ := mk_ok_inv hok
  refine ⟨by rw [hdir]; rfl, by rw [hdir]; exact canon_abs hv, ?_⟩
  intro fd hf hflow
  obtain ⟨hsc, -, -, -, -⟩ := mk_flow_ok_inv hv hf hflow hok
  constructor
  · rw [hsc]
  · intro hraw
    rw [hsc]
    exact canon_abs hraw

/-- Witness for claim C1 (amended), at the concrete construction `mk_scCanonW`. -/
theorem canonical_direction_scaling_witness :
    scCanonW.direction = (if |vWitness.1| > |vWitness.2|
      then (vWitness.1 / |vWitness.1|, vWitness.2 / |vWitness.1|)
      else (vWitness.1 / |vWitness.2|, vWitness.2 / |vWitness.2|)) ∧
    (if |vWitness.1| > |vWitness.2| then |scCanonW.direction.1| = 1
     else |scCanonW.direction.2| = 1) ∧
    (∀ fd, flowNeeded flowSurface (canon vWitness) (some (0, 1))
        (some ((1 : ℚ), (0 : ℚ))) vWitness (some ((1 : ℚ), (1 : ℚ)))
        (some ((1 : ℚ), (1 : ℚ))) false = true →
      flowSurface.flow (0, 0) (canon vWitness) 1000 = some fd →
      scCanonW.end_direction = canon fd.end_direction_raw ∧
      (fd.end_direction_raw ≠ ((0 : ℚ), (0 : ℚ)) →
        (if |fd.end_direction_raw.1| > |fd.end_direction_raw.2|
         then |scCanonW.end_direction.1| = 1 else |scCanonW.end_direction.2| = 1))) :=
  canonical_direction_scaling flowSurface (0, 0) vWitness (some (0, 1))
    (some ((1 : ℚ), (0 : ℚ))) (some ((1 : ℚ), (1 : ℚ))) (some ((1 : ℚ), (1 : ℚ)))
    false 1000 scCanonW mk_scCanonW

/-- Claim C8: `SaddleConnection.__eq__` returns true exactly when surface, canonical
direction and start data all agree — end data and holonomies are ignored — and raises
`TypeError` against any object that is not a saddle connection. -/
theorem saddle_connection_eq_semantics :
    (∀ a b : SaddleConnection, SaddleConnection.eq a (.sc b) = .ok true ↔
      (a.surface = b.surface ∧ a.direction = b.direction ∧
        a.start_data = b.start_data)) ∧
    (∀ (a : SaddleConnection) (x : Singularity) (n : ℕ),
      SaddleConnection.eq a (.sing x) = .error .typeError ∧
      SaddleConnection.eq a (.other n) = .error .typeError) := by
  refine ⟨fun a b => ?_, fun a x n => ⟨rfl, rfl⟩⟩
  rw [SaddleConnection.eq]
  split_ifs with h1 h2 h3 h4
  · subst h1
    simp
  · exact iff_of_true rfl ⟨h2, h3, h4⟩
  · exact iff_of_false (by simp) (fun hc => h4 hc.2.2)
  · exact iff_of_false (by simp) (fun hc => h3 hc.2.1)
  · exact iff_of_false (by simp) (fun hc => h2 hc.1)

/-- Claim C10: `Singularity.__eq__` and `__ne__` raise `TypeError` against any
non-singularity object; against a singularity on a different surface equality returns
false without error; and the hash depends only on the vertex set, never on the
surface. -/
theorem singularity_eq_semantics :
    (∀ (a : Singularity) (x : SaddleConnection) (n : ℕ),
      Singularity.eq a (.sc x) = .error .typeError ∧
      Singularity.eq a (.other n) = .error .typeError ∧
      Singularity.ne a (.sc x) = .error .typeError ∧
      Singularity.ne a (.other n) = .error .typeError) ∧
    (∀ a b : Singularity, a.surface ≠ b.surface →
      Singularity.eq a (.sing b) = .ok false) ∧
    (∀ (h : Finset (ℕ × ℕ) → ℤ) (a b : Singularity),
      a.vertex_set = b.vertex_set →
      Singularity.hashWith h a = Singularity.hashWith h b) := by
  refine ⟨fun a x n => ⟨rfl, rfl, rfl, rfl⟩, fun a b hs => ?_, fun h a b hv => ?_⟩
  · rw [Singularity.eq,
      if_neg (fun he => hs (congrArg Singularity.surface he)), if_pos hs]
  · rw [Singularity.hashWith, Singularity.hashWith, hv]

/-- Witness for claim C10, at two concrete singularities sharing a vertex set but
living on different surfaces. -/
theorem singularity_eq_semantics_witness :
    Singularity.eq singW1 (.sing singW2) = .ok false ∧
    Singularity.hashWith (fun _ => 37) singW1 =
      Singularity.hashWith (fun _ => 37) singW2 ∧
    Singularity.eq singW1 (.other 3) = .error .typeError ∧
    Singularity.ne singW1 (.other 3) = .error .typeError :=
  ⟨singularity_eq_semantics.2.1 singW1 singW2 (by decide),
   singularity_eq_semantics.2.2 (fun _ => 37) singW1 singW2 (by decide),
   (singularity_eq_semantics.1 singW1 cylScA 3).2.1,
   (singularity_eq_semantics.1 singW1 cylScA 3).2.2.2⟩

/-- Claim C6: when no boundary element matches the half-turn-rotated tangent, the
source reaches `raise ValuError(...)` — an undefined name — so `Cylinder.next` and
`Cylinder.previous` fail with `NameError` rather than the intended `ValueError` (the
spec's `TraversalError`). -/
theorem cylinder_next_no_match_nameerror (c : Cylinder) (sc : SaddleConnection)
    (hmem : sc ∈ c.boundary) :
    (nextMatch c.s c.boundary sc = none → Cylinder.next c sc = .error .nameError) ∧
    (prevMatch c.s c.boundary sc = none →
      Cylinder.previous c sc = .error .nameError) := by
  constructor
  · intro hn
    rw [Cylinder.next, if_pos hmem, hn]
  · intro hn
    rw [Cylinder.previous, if_pos hmem, hn]

/-- Witness for claim C6, on a concrete cylinder whose rotated tangents anchor at a
vertex carried by no boundary element. -/
theorem cylinder_next_no_match_nameerror_witness :
    Cylinder.next noMatchCylinder cylScA = .error .nameError ∧
    Cylinder.previous noMatchCylinder cylScA = .error .nameError :=
  ⟨(cylinder_next_no_match_nameerror noMatchCylinder cylScA (by decide)).1 (by decide),
   (cylinder_next_no_match_nameerror noMatchCylinder cylScA (by decide)).2 (by decide)⟩

lemma canon_one_zero : canon ((1 : ℚ), (0 : ℚ)) = ((1 : ℚ), (0 : ℚ)) := by
  norm_num [canon]

lemma inferEndDirection_supplied (S : SimilaritySurface) (dcanon : ℚ × ℚ)
    (ed : Option (ℕ × ℕ)) (e : ℚ × ℚ) :
    inferEndDirection S dcanon ed (some e) = some e := rfl

lemma inferEndHolonomy_supplied (S : SimilaritySurface) (dir : ℚ × ℚ)
    (edir : Option (ℚ × ℚ)) (hol : Option (ℚ × ℚ)) (e : ℚ × ℚ) :
    inferEndHolonomy S dir edir hol (some e) = some e := by
  cases hol <;> rfl

/-- Claim C2: whenever the constructor flows a trajectory and the flow succeeds, every
caller-supplied `end_data`, `end_direction`, `holonomy` or `end_holonomy` that differs
from the value computed by the flow makes construction fail with the
inconsistent-data `ValueError`, and on success every supplied value is stored exactly
as supplied — never silently overwritten by the computed one. -/
theorem supplied_data_checked_against_flow (S : SimilaritySurface) (sd : ℕ × ℕ)
    (dir : ℚ × ℚ) (ed : Option (ℕ × ℕ)) (edir hol ehol : Option (ℚ × ℚ)) (chk : Bool)
    (lim : ℕ) (fd : FlowData)
    (hd : dir ≠ ((0 : ℚ), (0 : ℚ)))
    (hcond : flowNeeded S (canon dir) ed edir dir hol ehol chk = true)
    (hflow : S.flow sd (canon dir) lim = some fd) :
    (((∃ e, ed = some e ∧ e ≠ fd.end_data) ∨
      (∃ e, edir = some e ∧ e ≠ canon fd.end_direction_raw) ∨
      (∃ e, hol = some e ∧ e ≠ computedHolonomy S sd fd) ∨
      (∃ e, ehol = some e ∧ e ≠ computedEndHolonomy S fd)) →
      mkSaddleConnection S sd dir ed edir hol ehol chk lim =
        .error .inconsistentData) ∧
    (∀ sc, mkSaddleConnection S sd dir ed edir hol ehol chk lim = .ok sc →
      (∀ e, ed = some e → sc.end_data = e) ∧
      (∀ e, edir = some e → sc.end_direction = e) ∧
      (∀ e, hol = some e → sc.holonomy = e) ∧
      (∀ e, ehol = some e → sc.end_holonomy = e)) := by
  constructor
  · intro hbad
    apply mk_flow_error hd hcond hflow
    rcases hbad with ⟨e, he, hne⟩ | ⟨e, he, hne⟩ | ⟨e, he, hne⟩ | ⟨e, he, hne⟩
    · exact Or.inl ⟨by simp [he], by simp [he, hne]⟩
    · subst he
      exact Or.inr (Or.inl ⟨by simp [inferEndDirection_supplied],
        by simp [inferEndDirection_supplied, hne]⟩)
    · exact Or.inr (Or.inr (Or.inl ⟨by simp [he], by simp [he, hne]⟩))
    · subst he
      exact Or.inr (Or.inr (Or.inr ⟨by simp [inferEndHolonomy_supplied],
        by simp [inferEndHolonomy_supplied, hne]⟩))
  · intro sc hok
    obtain ⟨hsc, h1, h2, h3, h4⟩ := mk_flow_ok_inv hd hcond hflow hok
    subst hsc
    refine ⟨fun e he => ?_, fun e he => ?_, fun e he => ?_, fun e he => ?_⟩
    · subst he
      rcases not_and_or.mp h1 with h | h
      · simp at h
      · have := not_not.mp h
        exact (Option.some.inj this).symm
    · subst he
      rcases not_and_or.mp h2 with h | h
      · rw [inferEndDirection_supplied] at h
        simp at h
      · rw [inferEndDirection_supplied] at h
        have := not_not.mp h
        exact (Option.some.inj this).symm
    · subst he
      rcases not_and_or.mp h3 with h | h
      · simp at h
      · have := not_not.mp h
        exact (Option.some.inj this).symm
    · subst he
      rcases not_and_or.mp h4 with h | h
      · rw [inferEndHolonomy_supplied] at h
        simp at h
      · rw [inferEndHolonomy_supplied] at h
        have := not_not.mp h
        exact (Option.some.inj this).symm

/-- Witness for claim C2: on `flowSurface` the flow computes holonomy `(2, 0)`;
supplying `(5, 5)` instead fails with the inconsistent-data error. -/
theorem supplied_data_checked_against_flow_witness :
    mkSaddleConnection flowSurface (0, 0) ((1 : ℚ), (0 : ℚ)) none none
      (some ((5 : ℚ), (5 : ℚ))) none true 1000 = .error .inconsistentData :=
  (supplied_data_checked_against_flow flowSurface (0, 0) ((1 : ℚ), (0 : ℚ)) none none
    (some ((5 : ℚ), (5 : ℚ))) none true 1000 flowDataW (by simp) rfl
    (by rw [canon_one_zero]; simp [flowSurface, baseSurface])).1
    (Or.inr (Or.inr (Or.inl ⟨((5 : ℚ), (5 : ℚ)), rfl,
      by norm_num [computedHolonomy, flowDataW]⟩)))

/-- The trusted-input construction of `scInvW` on `flowSurface` succeeds. -/
lemma mk_scInvW :
    mkSaddleConnection flowSurface (0, 0) ((1 : ℚ), (0 : ℚ)) (some (0, 1))
      (some ((-1 : ℚ), (0 : ℚ))) (some ((2 : ℚ), (0 : ℚ))) (some ((-2 : ℚ), (0 : ℚ)))
      false 1000 = .ok scInvW := by
  rw [show mkSaddleConnection flowSurface (0, 0) ((1 : ℚ), (0 : ℚ)) (some (0, 1))
      (some ((-1 : ℚ), (0 : ℚ))) (some ((2 : ℚ), (0 : ℚ))) (some ((-2 : ℚ), (0 : ℚ)))
      false 1000 =
      .ok ⟨flowSurface.id, (0, 0), canon ((1 : ℚ), (0 : ℚ)), (0, 1),
        ((-1 : ℚ), (0 : ℚ)), ((2 : ℚ), (0 : ℚ)), ((-2 : ℚ), (0 : ℚ))⟩
    from mk_fast_eq (by simp) rfl rfl rfl rfl rfl]
  rw [canon_one_zero]
  rfl

/-- Claim C4 (counterexample): the trusted-input path accepts a saddle connection whose
stored `end_direction` is the zero vector; `invert` on it fails with the
degenerate-vector error, so `invert(invert(sc))` is an error rather than `sc`. -/
theorem invert_zero_end_direction_counterexample :
    mkSaddleConnection flowSurface (0, 0) ((1 : ℚ), (0 : ℚ)) (some (0, 1))
      (some ((0 : ℚ), (0 : ℚ))) (some ((2 : ℚ), (0 : ℚ))) (some ((-2 : ℚ), (0 : ℚ)))
      false 1000 = .ok scZeroEndW ∧
    SaddleConnection.invert flowSurface scZeroEndW = .error .degenerateVector ∧
    (SaddleConnection.invert flowSurface scZeroEndW).bind
      (SaddleConnection.invert flowSurface) = .error .degenerateVector := by
  have h2 : SaddleConnection.invert flowSurface scZeroEndW =
      .error .degenerateVector := by
    rw [SaddleConnection.invert, mkSaddleConnection,
      if_pos (show scZeroEndW.end_direction = ((0 : ℚ), (0 : ℚ)) from rfl)]
  refine ⟨?_, h2, by rw [h2]; rfl⟩
  rw [show mkSaddleConnection flowSurface (0, 0) ((1 : ℚ), (0 : ℚ)) (some (0, 1))
      (some ((0 : ℚ), (0 : ℚ))) (some ((2 : ℚ), (0 : ℚ))) (some ((-2 : ℚ), (0 : ℚ)))
      false 1000 =
      .ok ⟨flowSurface.id, (0, 0), canon ((1 : ℚ), (0 : ℚ)), (0, 1),
        ((0 : ℚ), (0 : ℚ)), ((2 : ℚ), (0 : ℚ)), ((-2 : ℚ), (0 : ℚ))⟩
    from mk_fast_eq (by simp) rfl rfl rfl rfl rfl]
  rw [canon_one_zero]
  rfl

/-- Claim C4 (amended): for every constructed saddle connection whose stored
`end_direction` is nonzero (as it always is for flow-validated data), `invert` swaps
start/end data, directions (re-canonicalizing the end direction) and holonomies, and
applying it twice yields a saddle connection equal to the original under `__eq__`,
i.e. with the same surface, direction and start data. -/
theorem saddle_inversion_involutive (S : SimilaritySurface) (sd : ℕ × ℕ)
    (dir : ℚ × ℚ) (ed : Option (ℕ × ℕ)) (edir hol ehol : Option (ℚ × ℚ)) (chk : Bool)
    (lim : ℕ) (sc : SaddleConnection)
    (hok : mkSaddleConnection S sd dir ed edir hol ehol chk lim = .ok sc)
    (hend : sc.end_direction ≠ ((0 : ℚ), (0 : ℚ))) :
    ∃ sc1 sc2,
      SaddleConnection.invert S sc = .ok sc1 ∧
      sc1.start_data = sc.end_data ∧ sc1.end_data = sc.start_data ∧
      sc1.direction = canon sc.end_direction ∧ sc1.end_direction = sc.direction ∧
      sc1.holonomy = sc.end_holonomy ∧ sc1.end_holonomy = sc.holonomy ∧
      SaddleConnection.invert S sc1 = .ok sc2 ∧
      SaddleConnection.eq sc2 (.sc sc) = .ok true := by
  obtain ⟨hv, hsurf, -, hdir⟩ := mk_ok_inv hok
  have hdne : sc.direction ≠ ((0 : ℚ), (0 : ℚ)) := by
    rw [hdir]; exact canon_ne_zero hv
  have hdc : canon sc.direction = sc.direction := by
    rw [hdir]; exact canon_idem hv
  refine ⟨⟨S.id, sc.end_data, canon sc.end_direction, sc.start_data, sc.direction,
    sc.end_holonomy, sc.holonomy⟩,
    ⟨S.id, sc.start_data, canon sc.direction, sc.end_data, canon sc.end_direction,
    sc.holonomy, sc.end_holonomy⟩, ?_, rfl, rfl, rfl, rfl, rfl, rfl, ?_, ?_⟩
  · rw [SaddleConnection.invert]
    exact mk_fast_eq hend rfl rfl rfl rfl rfl
  · rw [SaddleConnection.invert]
    exact mk_fast_eq hdne rfl rfl rfl rfl rfl
  · rw [SaddleConnection.eq]
    split_ifs with g1 g2 g3
    · rfl
    · rfl
    · exact absurd rfl g3
    · exact absurd hsurf.symm g2

/-- Witness for claim C4 (amended), at the concrete construction `mk_scInvW`. -/
theorem saddle_inversion_involutive_witness :
    ∃ sc1 sc2,
      SaddleConnection.invert flowSurface scInvW = .ok sc1 ∧
      sc1.start_data = scInvW.end_data ∧ sc1.end_data = scInvW.start_data ∧
      sc1.direction = canon scInvW.end_direction ∧
      sc1.end_direction = scInvW.direction ∧
      sc1.holonomy = scInvW.end_holonomy ∧ sc1.end_holonomy = scInvW.holonomy ∧
      SaddleConnection.invert flowSurface sc1 = .ok sc2 ∧
      SaddleConnection.eq sc2 (.sc scInvW) = .ok true :=
  saddle_inversion_involutive flowSurface (0, 0) ((1 : ℚ), (0 : ℚ)) (some (0, 1))
    (some ((-1 : ℚ), (0 : ℚ))) (some ((2 : ℚ), (0 : ℚ))) (some ((-2 : ℚ), (0 : ℚ)))
    false 1000 scInvW mk_scInvW (by norm_num [scInvW, Prod.ext_iff])

lemma isd_unit : is_same_direction ((1 : ℚ), (0 : ℚ)) ((1 : ℚ), (0 : ℚ)) = true := by
  norm_num [is_same_direction, wedge_product, dot_product]

lemma nextOnBoundary_cylScA :
    nextOnBoundary cylSurface [cylScA, cylScB] cylScA = .ok cylScA := by
  have hm : nextMatch cylSurface [cylScA, cylScB] cylScA = some cylScA := by
    simp only [nextMatch]
    rw [show cylSurface.clockwise180 cylScA.end_data cylScA.end_direction =
        ((0, 0), ((1 : ℚ), (0 : ℚ))) from rfl]
    dsimp only
    rw [List.find?_cons_of_pos]
    simp only [cylScA, beq_self_eq_true, Bool.true_and]
    exact isd_unit
  rw [nextOnBoundary, if_pos (by simp), hm]

lemma nextOnBoundary_cylScB :
    nextOnBoundary cylSurface [cylScA, cylScB] cylScB = .ok cylScB := by
  have hm : nextMatch cylSurface [cylScA, cylScB] cylScB = some cylScB := by
    simp only [nextMatch]
    rw [show cylSurface.clockwise180 cylScB.end_data cylScB.end_direction =
        ((5, 5), ((1 : ℚ), (0 : ℚ))) from rfl]
    dsimp only
    rw [List.find?_cons_of_neg]
    ·  rw [List.find?_cons_of_pos]
       simp only [cylScB, beq_self_eq_true, Bool.true_and]
       exact isd_unit
    ·  simp [cylScA, Prod.ext_iff]
  rw [nextOnBoundary, if_pos (by simp), hm]

lemma cylLoop_self (S : SimilaritySurface) (bd : List SaddleConnection)
    (base : SaddleConnection) (fuel : ℕ) (acc : Finset SaddleConnection) :
    cylLoop S bd base fuel base acc = .ok acc := by
  cases fuel with
  | zero => rw [cylLoop, if_pos rfl]
  | succ f => rw [cylLoop, if_pos rfl]

lemma dedup_AB : ([cylScA, cylScB] : List SaddleConnection).dedup =
    [cylScA, cylScB] := by
  rw [List.dedup_cons_of_not_mem (by decide),
    List.dedup_cons_of_not_mem (by decide), List.dedup_nil]

lemma mkCylinder_cex_eval :
    mkCylinder cylSurface [cylScA, cylScB] cylScA 10 =
      .ok ⟨cylSurface, [cylScA, cylScB], {cylScA}, {cylScB}, cylScA⟩ := by
  rw [mkCylinder, if_neg (by simp),
    if_neg (by simp [cylScA, cylScB, cylSurface, baseSurface])]
  dsimp only
  rw [dedup_AB, nextOnBoundary_cylScA]
  dsimp only [Bind.bind, Except.bind]
  rw [cylLoop_self]
  dsimp only [Bind.bind, Except.bind]
  rw [show ([cylScA, cylScB] : List SaddleConnection).filter
      (fun x => decide (x ∉ ({cylScA} : Finset SaddleConnection))) = [cylScB]
    from by decide]
  dsimp only
  rw [nextOnBoundary_cylScB]
  dsimp only [Bind.bind, Except.bind]
  rw [cylLoop_self]
  dsimp only [Bind.bind, Except.bind]
  rw [if_neg (by decide), if_neg (by decide)]

/-- Claim C5 (counterexample): on a translation surface, two fast-path saddle
connections with equal holonomies `(1, 0)` form a successfully constructed cylinder
whose two boundary components' holonomy sums are not additive inverses — construction
performs no holonomy verification. -/
theorem cylinder_unbalanced_counterexample :
    mkSaddleConnection cylSurface (0, 0) ((1 : ℚ), (0 : ℚ)) (some (0, 1))
      (some ((-1 : ℚ), (0 : ℚ))) (some ((1 : ℚ), (0 : ℚ))) (some ((-1 : ℚ), (0 : ℚ)))
      false 1000 = .ok cylScA ∧
    mkSaddleConnection cylSurface (5, 5) ((1 : ℚ), (0 : ℚ)) (some (5, 6))
      (some ((-1 : ℚ), (0 : ℚ))) (some ((1 : ℚ), (0 : ℚ))) (some ((-1 : ℚ), (0 : ℚ)))
      false 1000 = .ok cylScB ∧
    cylSurface.isTranslation = true ∧
    mkCylinder cylSurface [cylScA, cylScB] cylScA 10 =
      .ok ⟨cylSurface, [cylScA, cylScB], {cylScA}, {cylScB}, cylScA⟩ ∧
    ¬(Finset.sum {cylScA} (fun sc => sc.holonomy) =
      -Finset.sum {cylScB} (fun sc => sc.holonomy)) := by
  refine ⟨?_, ?_, rfl, mkCylinder_cex_eval, ?_⟩
  · rw [show mkSaddleConnection cylSurface (0, 0) ((1 : ℚ), (0 : ℚ)) (some (0, 1))
        (some ((-1 : ℚ), (0 : ℚ))) (some ((1 : ℚ), (0 : ℚ)))
        (some ((-1 : ℚ), (0 : ℚ))) false 1000 =
        .ok ⟨cylSurface.id, (0, 0), canon ((1 : ℚ), (0 : ℚ)), (0, 1),
          ((-1 : ℚ), (0 : ℚ)), ((1 : ℚ), (0 : ℚ)), ((-1 : ℚ), (0 : ℚ))⟩
      from mk_fast_eq (by simp) rfl rfl rfl rfl rfl]
    rw [canon_one_zero]
    rfl
  · rw [show mkSaddleConnection cylSurface (5, 5) ((1 : ℚ), (0 : ℚ)) (some (5, 6))
        (some ((-1 : ℚ), (0 : ℚ))) (some ((1 : ℚ), (0 : ℚ)))
        (some ((-1 : ℚ), (0 : ℚ))) false 1000 =
        .ok ⟨cylSurface.id, (5, 5), canon ((1 : ℚ), (0 : ℚ)), (5, 6),
          ((-1 : ℚ), (0 : ℚ)), ((1 : ℚ), (0 : ℚ)), ((-1 : ℚ), (0 : ℚ))⟩
      from mk_fast_eq (by simp) rfl rfl rfl rfl rfl]
    rw [canon_one_zero]
    rfl
  · rw [Finset.sum_singleton, Finset.sum_singleton]
    norm_num [cylScA, cylScB, Prod.ext_iff]

/-- Claim C5 (amended): whenever `Cylinder.holonomy()` returns a value, that value is
the sum of the holonomies over the first boundary component, and the internal
assertion guarantees this sum is the additive inverse of the sum over the second
component; a cylinder violating the inverse relation makes `holonomy()` fail its
assertion instead of returning. -/
theorem cylinder_holonomy_antisymmetry (c : Cylinder) (t : ℚ × ℚ)
    (h : Cylinder.holonomy c = .ok t) :
    t = Finset.sum c.boundary1 (fun sc => sc.holonomy) ∧
    Finset.sum c.boundary1 (fun sc => sc.holonomy) =
      -Finset.sum c.boundary2 (fun sc => sc.holonomy) := by
  simp only [Cylinder.holonomy] at h
  split_ifs at h with h1 h2
  rw [Except.ok.injEq] at h
  exact ⟨h.symm, eq_neg_of_add_eq_zero_left h2⟩

/-- Witness for claim C5 (amended), at a balanced concrete cylinder. -/
theorem cylinder_holonomy_antisymmetry_witness :
    ((1 : ℚ), (0 : ℚ)) = Finset.sum cylBalanced.boundary1 (fun sc => sc.holonomy) ∧
    Finset.sum cylBalanced.boundary1 (fun sc => sc.holonomy) =
      -Finset.sum cylBalanced.boundary2 (fun sc => sc.holonomy) :=
  cylinder_holonomy_antisymmetry cylBalanced ((1 : ℚ), (0 : ℚ)) (by
    have hs1 : Finset.sum cylBalanced.boundary1 (fun sc => sc.holonomy) =
        ((1 : ℚ), (0 : ℚ)) := by
      rw [show cylBalanced.boundary1 = {cylScA} from rfl, Finset.sum_singleton]
      rfl
    have hs2 : Finset.sum cylBalanced.boundary2 (fun sc => sc.holonomy) =
        ((-1 : ℚ), (0 : ℚ)) := by
      rw [show cylBalanced.boundary2 = {cylScC} from rfl, Finset.sum_singleton]
      rfl
    simp only [Cylinder.holonomy, hs1, hs2]
    norm_num [cylBalanced, cylSurface, baseSurface, Prod.ext_iff])

lemma iterate_mod_of_fix {α : Type} (f : α → α) (x : α) {j : ℕ} (hj : 0 < j)
    (hfix : f^[j] x = x) (m : ℕ) : f^[m] x = f^[m % j] x := by
  conv_lhs => rw [← Nat.mod_add_div m j]
  rw [Function.iterate_add_apply]
  congr 1
  rw [Function.iterate_mul]
  exact Function.iterate_fixed hfix (m / j)

lemma orbit_subset {α : Type} [DecidableEq α] (f : α → α) (x : α) {j : ℕ}
    (hj : 0 < j) (hfix : f^[j] x = x) (n : ℕ) :
    ((Finset.range n).image fun i => f^[i] x) ⊆
      (Finset.range j).image fun i => f^[i] x := by
  intro y hy
  obtain ⟨i, -, rfl⟩ := Finset.mem_image.mp hy
  rw [iterate_mod_of_fix f x hj hfix i]
  exact Finset.mem_image.mpr ⟨i % j, Finset.mem_range.mpr (Nat.mod_lt _ hj), rfl⟩

lemma orbit_eq {α : Type} [DecidableEq α] (f : α → α) (x : α) {j n : ℕ}
    (hj : 0 < j) (hn : 0 < n) (hfj : f^[j] x = x) (hfn : f^[n] x = x) :
    ((Finset.range j).image fun i => f^[i] x) =
      (Finset.range n).image fun i => f^[i] x :=
  Finset.Subset.antisymm (orbit_subset f x hn hfn j) (orbit_subset f x hj hfj n)

lemma range_image_succ {α : Type} [DecidableEq α] (f : α → α) (x : α) (j : ℕ) :
    insert (f^[j] x) ((Finset.range j).image fun i => f^[i] x) =
      (Finset.range (j + 1)).image fun i => f^[i] x := by
  rw [Finset.range_succ, Finset.image_insert]

/-- Any successful run of the cycle-closure loop, started at the `j`-th iterate with
the first `j` iterates visited, closes at some return time `n` and returns exactly the
orbit of the start pair. -/
lemma singLoop_ok_orbit (S : SimilaritySurface) (start : ℕ × ℕ) (limit : Option ℕ) :
    ∀ (fuel j : ℕ) (t : Finset (ℕ × ℕ)), 0 < j →
    singLoop S start limit fuel ((SimilaritySurface.succ S)^[j] start)
      ((Finset.range j).image fun i => (SimilaritySurface.succ S)^[i] start) = .ok t →
    ∃ n, 0 < n ∧ (SimilaritySurface.succ S)^[n] start = start ∧
      t = (Finset.range n).image fun i => (SimilaritySurface.succ S)^[i] start := by
  intro fuel
  induction fuel with
  | zero =>
    intro j t hj h
    rw [singLoop] at h
    split_ifs at h with hs
    exact ⟨j, hj, hs.symm, (SingResult.ok.inj h).symm⟩
  | succ f ih =>
    intro j t hj h
    rcases limit with _ | lim
    · rw [singLoop] at h
      split_ifs at h with hs
      · exact ⟨j, hj, hs.symm, (SingResult.ok.inj h).symm⟩
      · rw [range_image_succ,
          ← Function.iterate_succ_apply' (SimilaritySurface.succ S) j start] at h
        exact ih (j + 1) t (Nat.succ_pos j) h
    · rw [singLoop] at h
      split_ifs at h with hs hlim
      · exact ⟨j, hj, hs.symm, (SingResult.ok.inj h).symm⟩
      · rw [range_image_succ,
          ← Function.iterate_succ_apply' (SimilaritySurface.succ S) j start] at h
        exact ih (j + 1) t (Nat.succ_pos j) h

/-- Forward evaluation of the cycle-closure loop: when the orbit returns to the start
after `n` steps, the fuel suffices and the limit (when given) accommodates every
intermediate visited set, the loop succeeds with the full orbit. -/
lemma singLoop_run (S : SimilaritySurface) (start : ℕ × ℕ) (limit : Option ℕ)
    (n : ℕ) (hn : 0 < n) (hfix : (SimilaritySurface.succ S)^[n] start = start)
    (hlim : ∀ lim, limit = some lim → ∀ m, 2 ≤ m → m ≤ n →
      (((Finset.range m).image fun i =>
        (SimilaritySurface.succ S)^[i] start).card ≤ lim)) :
    ∀ (fuel j : ℕ), 0 < j → j ≤ n → n - j ≤ fuel →
    singLoop S start limit fuel ((SimilaritySurface.succ S)^[j] start)
      ((Finset.range j).image fun i => (SimilaritySurface.succ S)^[i] start) =
      .ok ((Finset.range n).image fun i => (SimilaritySurface.succ S)^[i] start) := by
  intro fuel
  induction fuel with
  | zero =>
    intro j hj hjn hfuel
    have hj_eq : j = n := by omega
    subst hj_eq
    rw [singLoop, if_pos hfix.symm]
  | succ f ih =>
    intro j hj hjn hfuel
    by_cases hs : start = (SimilaritySurface.succ S)^[j] start
    · have horb := orbit_eq (SimilaritySurface.succ S) start hj hn hs.symm hfix
      rcases limit with _ | lim
      · rw [singLoop, if_pos hs, horb]
      · rw [singLoop, if_pos hs, horb]
    · have hjn' : j < n := by
        rcases Nat.lt_or_ge j n with hlt | hge
        · exact hlt
        · exact absurd (by rw [le_antisymm hjn hge]; exact hfix.symm) hs
      rcases limit with _ | lim
      · rw [singLoop, if_neg hs, range_image_succ,
          ← Function.iterate_succ_apply' (SimilaritySurface.succ S) j start]
        exact ih (j + 1) (Nat.succ_pos j) hjn' (by omega)
      · rw [singLoop, if_neg hs]
        rw [range_image_succ]
        rw [if_neg (not_lt.mpr (hlim lim rfl (j + 1) (by omega) (by omega)))]
        rw [← Function.iterate_succ_apply' (SimilaritySurface.succ S) j start]
        exact ih (j + 1) (Nat.succ_pos j) hjn' (by omega)

/-- A successful limited run either never entered the loop body (returning the seed
set) or ends with a set of size within the limit. -/
lemma singLoop_ok_card (S : SimilaritySurface) (start : ℕ × ℕ) (lim : ℕ) :
    ∀ (fuel : ℕ) (nxt : ℕ × ℕ) (s t : Finset (ℕ × ℕ)),
    singLoop S start (some lim) fuel nxt s = .ok t → t = s ∨ t.card ≤ lim := by
  intro fuel
  induction fuel with
  | zero =>
    intro nxt s t h
    rw [singLoop] at h
    split_ifs at h
    exact Or.inl (SingResult.ok.inj h).symm
  | succ f ih =>
    intro nxt s t h
    rw [singLoop] at h
    split_ifs at h with hs hlim
    · exact Or.inl (SingResult.ok.inj h).symm
    · rcases ih _ _ _ h with h' | h'
      · right
        rw [h']
        exact not_lt.mp hlim
      · exact Or.inr h'

/-- Claim C3: whenever `Singularity.__init__` succeeds, the returned vertex set
contains the generator, is closed under the successor map
`next(l,v) = (opp_label, (opp_edge+1) mod num_edges(opp_label))`, consists of exactly
one successor orbit of the generator, and rebuilding the singularity from any member
of the set (with the same limit) returns the same set. -/
theorem singularity_orbit_closure (S : SimilaritySurface) (l v : ℕ)
    (limit : Option ℕ) (fuel : ℕ) (t : Finset (ℕ × ℕ))
    (h : singularityInit S l v limit fuel = .ok t) :
    (l, v) ∈ t ∧
    (∀ p ∈ t, SimilaritySurface.succ S p ∈ t) ∧
    (∀ p ∈ t, ∃ i, p = (SimilaritySurface.succ S)^[i] (l, v)) ∧
    (∀ p ∈ t, ∃ fuel2, singularityInit S p.1 p.2 limit fuel2 = .ok t) := by
  rw [singularityInit] at h
  have hguard : ¬(S.is_finite = false ∧ limit = none) := by
    intro hg
    rw [if_pos hg] at h
    exact SingResult.noConfusion h
  rw [if_neg hguard] at h
  have h1 : singLoop S (l, v) limit fuel
      ((SimilaritySurface.succ S)^[1] (l, v))
      ((Finset.range 1).image fun i => (SimilaritySurface.succ S)^[i] (l, v)) =
      .ok t := by
    rw [Function.iterate_one]
    rw [show ((Finset.range 1).image fun i =>
        (SimilaritySurface.succ S)^[i] (l, v)) = {(l, v)} from by simp]
    exact h
  obtain ⟨n, hn, hfix, ht⟩ := singLoop_ok_orbit S (l, v) limit fuel 1 t Nat.one_pos h1
  subst ht
  refine ⟨Finset.mem_image.mpr ⟨0, Finset.mem_range.mpr hn, rfl⟩, ?_, ?_, ?_⟩
  · intro p hp
    obtain ⟨i, -, rfl⟩ := Finset.mem_image.mp hp
    rw [← Function.iterate_succ_apply' (SimilaritySurface.succ S) i (l, v)]
    rw [iterate_mod_of_fix (SimilaritySurface.succ S) (l, v) hn hfix (i + 1)]
    exact Finset.mem_image.mpr ⟨(i + 1) % n, Finset.mem_range.mpr (Nat.mod_lt _ hn),
      rfl⟩
  · intro p hp
    obtain ⟨i, -, rfl⟩ := Finset.mem_image.mp hp
    exact ⟨i, rfl⟩
  · intro p hp
    obtain ⟨i, hi_mem, rfl⟩ := Finset.mem_image.mp hp
    have hi : i < n := Finset.mem_range.mp hi_mem
    have hpfix : (SimilaritySurface.succ S)^[n]
        ((SimilaritySurface.succ S)^[i] (l, v)) =
        (SimilaritySurface.succ S)^[i] (l, v) := by
      rw [← Function.iterate_add_apply, Nat.add_comm, Function.iterate_add_apply,
        hfix]
    have horb : ((Finset.range n).image fun k => (SimilaritySurface.succ S)^[k]
        ((SimilaritySurface.succ S)^[i] (l, v))) =
        (Finset.range n).image fun k => (SimilaritySurface.succ S)^[k] (l, v) := by
      apply Finset.Subset.antisymm
      · intro y hy
        obtain ⟨k, -, rfl⟩ := Finset.mem_image.mp hy
        rw [← Function.iterate_add_apply]
        rw [iterate_mod_of_fix (SimilaritySurface.succ S) (l, v) hn hfix (k + i)]
        exact Finset.mem_image.mpr ⟨(k + i) % n,
          Finset.mem_range.mpr (Nat.mod_lt _ hn), rfl⟩
      · intro y hy
        obtain ⟨k, hk, rfl⟩ := Finset.mem_image.mp hy
        refine Finset.mem_image.mpr ⟨(k + (n - i)) % n,
          Finset.mem_range.mpr (Nat.mod_lt _ hn), ?_⟩
        rw [← Function.iterate_add_apply]
        rw [iterate_mod_of_fix (SimilaritySurface.succ S) (l, v) hn hfix
          ((k + (n - i)) % n + i)]
        have hidx : ((k + (n - i)) % n + i) % n = k := by
          rw [Nat.mod_add_mod, Nat.add_assoc, Nat.sub_add_cancel (le_of_lt hi),
            Nat.add_mod_right, Nat.mod_eq_of_lt (Finset.mem_range.mp hk)]
        rw [hidx]
    have hseed : ((Finset.range 1).image fun k => (SimilaritySurface.succ S)^[k]
        ((SimilaritySurface.succ S)^[i] (l, v))) =
        {(SimilaritySurface.succ S)^[i] (l, v)} := by simp
    rcases limit with _ | lim
    · refine ⟨n, ?_⟩
      rw [singularityInit, if_neg hguard, Prod.mk.eta]
      have hrun := singLoop_run S ((SimilaritySurface.succ S)^[i] (l, v)) none n hn
        hpfix (by intro lim hl; simp at hl) n 1 Nat.one_pos hn (by omega)
      rw [Function.iterate_one, hseed, horb] at hrun
      exact hrun
    · rcases singLoop_ok_card S (l, v) lim fuel _ _ _ h with hsing | hcard
      · have hpx : (SimilaritySurface.succ S)^[i] (l, v) = (l, v) := by
          have hmem : (SimilaritySurface.succ S)^[i] (l, v) ∈
              ((Finset.range n).image fun k =>
                (SimilaritySurface.succ S)^[k] (l, v)) :=
            Finset.mem_image.mpr ⟨i, hi_mem, rfl⟩
          rw [hsing] at hmem
          exact Finset.mem_singleton.mp hmem
        refine ⟨fuel, ?_⟩
        rw [hpx, singularityInit, if_neg hguard]
        exact h
      · refine ⟨n, ?_⟩
        rw [singularityInit, if_neg hguard, Prod.mk.eta]
        have hrun := singLoop_run S ((SimilaritySurface.succ S)^[i] (l, v))
          (some lim) n hn hpfix ?_ n 1 Nat.one_pos hn (by omega)
        · rw [Function.iterate_one, hseed, horb] at hrun
          exact hrun
        · intro lim' hl m hm2 hmn
          obtain rfl : lim = lim' := Option.some.inj hl
          calc ((Finset.range m).image fun k => (SimilaritySurface.succ S)^[k]
                ((SimilaritySurface.succ S)^[i] (l, v))).card
              ≤ ((Finset.range n).image fun k => (SimilaritySurface.succ S)^[k]
                ((SimilaritySurface.succ S)^[i] (l, v))).card :=
                Finset.card_le_card (Finset.image_subset_image
                  (Finset.range_subset.mpr hmn))
            _ ≤ lim := by rw [horb]; exact hcard

/-- Witness for claim C3, on the square torus: the orbit of vertex `(0, 0)` is all
four corners. -/
theorem singularity_orbit_closure_witness :
    ((0, 0) : ℕ × ℕ) ∈ torusOrbit ∧
    (∀ p ∈ torusOrbit, SimilaritySurface.succ torusSurface p ∈ torusOrbit) ∧
    (∀ p ∈ torusOrbit, ∃ i,
      p = (SimilaritySurface.succ torusSurface)^[i] (0, 0)) ∧
    (∀ p ∈ torusOrbit, ∃ fuel2,
      singularityInit torusSurface p.1 p.2 none fuel2 = .ok torusOrbit) :=
  singularity_orbit_closure torusSurface 0 0 none 10 torusOrbit (by rfl)

/-- The limited cycle-closure loop fires the limit error as soon as the visited set
outgrows the limit while the orbit has not yet returned to the start. -/
lemma singLoop_limit_fire (S : SimilaritySurface) (start : ℕ × ℕ) (lim j : ℕ)
    (hne : ∀ j', j' ≤ j → 0 < j' →
      (SimilaritySurface.succ S)^[j'] start ≠ start)
    (hcard : lim < ((Finset.range (j + 1)).image fun i =>
      (SimilaritySurface.succ S)^[i] start).card) :
    ∀ (fuel j0 : ℕ), 0 < j0 → j0 ≤ j → j - j0 + 1 ≤ fuel →
    singLoop S start (some lim) fuel ((SimilaritySurface.succ S)^[j0] start)
      ((Finset.range j0).image fun i => (SimilaritySurface.succ S)^[i] start) =
      .limitExceeded := by
  intro fuel
  induction fuel with
  | zero =>
    intro j0 h1 h2 h3
    omega
  | succ f ih =>
    intro j0 h1 h2 h3
    rw [singLoop]
    rw [if_neg (fun hs => hne j0 h2 h1 hs.symm)]
    rw [range_image_succ]
    by_cases hfire : lim < ((Finset.range (j0 + 1)).image fun i =>
        (SimilaritySurface.succ S)^[i] start).card
    · rw [if_pos hfire]
    · rw [if_neg hfire]
      have hj0j : j0 < j := by
        rcases Nat.lt_or_ge j0 j with hlt | hge
        · exact hlt
        · exact absurd (le_antisymm h2 hge ▸ hcard) hfire
      rw [← Function.iterate_succ_apply' (SimilaritySurface.succ S) j0 start]
      exact ih (j0 + 1) (Nat.succ_pos j0) hj0j (by omega)

/-- Claim C7: on a non-finite surface with no limit, `Singularity.__init__` fails with
the missing-limit error; with a limit, it fails with the limit-exceeded error as soon
as the visited vertex set outgrows the limit before the successor cycle closes; in
both failure cases no vertex set is produced. -/
theorem singularity_limit_errors :
    (∀ (S : SimilaritySurface) (l v fuel : ℕ), S.is_finite = false →
      singularityInit S l v none fuel = .missingLimit) ∧
    (∀ (S : SimilaritySurface) (l v lim j fuel : ℕ), 0 < j → j + 1 ≤ fuel →
      (∀ j', j' ≤ j → 0 < j' →
        (SimilaritySurface.succ S)^[j'] (l, v) ≠ (l, v)) →
      lim < ((Finset.range (j + 1)).image fun i =>
        (SimilaritySurface.succ S)^[i] (l, v)).card →
      singularityInit S l v (some lim) fuel = .limitExceeded) ∧
    (∀ s : Finset (ℕ × ℕ), SingResult.missingLimit ≠ SingResult.ok s ∧
      SingResult.limitExceeded ≠ SingResult.ok s) := by
  refine ⟨fun S l v fuel hfin => ?_, fun S l v lim j fuel hj hfuel hne hcard => ?_,
    fun s => ⟨fun h => SingResult.noConfusion h, fun h => SingResult.noConfusion h⟩⟩
  · rw [singularityInit, if_pos ⟨hfin, rfl⟩]
  · have hfire := singLoop_limit_fire S (l, v) lim j hne hcard fuel 1 Nat.one_pos hj
      (by omega)
    rw [Function.iterate_one] at hfire
    rw [show ((Finset.range 1).image fun i =>
        (SimilaritySurface.succ S)^[i] (l, v)) = {(l, v)} from by simp] at hfire
    rw [singularityInit, if_neg (by simp)]
    exact hfire

/-- Witness for claim C7: the torus gluing data flagged infinite without a limit, and
the torus with limit 1, where the visited set reaches size 2 before closure. -/
theorem singularity_limit_errors_witness :
    singularityInit infiniteSurface 0 0 none 5 = .missingLimit ∧
    singularityInit torusSurface 0 0 (some 1) 10 = .limitExceeded :=
  ⟨singularity_limit_errors.1 infiniteSurface 0 0 5 rfl,
   singularity_limit_errors.2.1 torusSurface 0 0 1 1 10 (by decide) (by decide)
     (by decide) (by decide)⟩

lemma M2.mul_assoc (x y z : M2) : (x.mul y).mul z = x.mul (y.mul z) := by
  simp only [M2.mul, M2.mk.injEq]
  refine ⟨by ring, by ring, by ring, by ring⟩

lemma M2.one_mul (x : M2) : M2.one.mul x = x := by
  cases x
  simp [M2.mul, M2.one]

lemma M2.mul_one (x : M2) : x.mul M2.one = x := by
  cases x
  simp [M2.mul, M2.one]

lemma M2.det_mul (x y : M2) : (x.mul y).det = x.det * y.det := by
  simp only [M2.mul, M2.det]
  ring

lemma M2.det_one : M2.one.det = 1 := by
  simp [M2.one, M2.det]

lemma M2.inv_mul (x : M2) (hx : x.det ≠ 0) : (M2.inv x).mul x = M2.one := by
  obtain ⟨a, b, c, d⟩ := x
  simp only [M2.det] at hx
  simp only [M2.inv, M2.mul, M2.one, M2.det, M2.mk.injEq]
  refine ⟨?_, ?_, ?_, ?_⟩ <;> field_simp <;> ring

/-- A two-sided inverse of a 2×2 matrix is its adjugate-formula inverse. -/
lemma M2.inv_eq_of_mul (x y : M2) (h1 : x.mul y = M2.one) (h2 : y.mul x = M2.one) :
    M2.inv x = y := by
  have hdet : x.det ≠ 0 := by
    intro h0
    have hd := M2.det_mul x y
    rw [h1, M2.det_one, h0, zero_mul] at hd
    norm_num at hd
  calc M2.inv x = (M2.inv x).mul M2.one := (M2.mul_one _).symm
    _ = (M2.inv x).mul (x.mul y) := by rw [h1]
    _ = ((M2.inv x).mul x).mul y := (M2.mul_assoc _ _ _).symm
    _ = M2.one.mul y := by rw [M2.inv_mul x hdet]
    _ = y := M2.one_mul y

/-- Claim C9: `Origami.opposite_edge` is an involution for validated permutation data,
and `MinimalTranslationCover.opposite_edge` is an involution whenever the base
surface's `opposite_edge` is involutive and its edge matrices across each gluing are
mutually inverse. -/
theorem opposite_edge_involutive :
    (∀ (α : Type) (o : Origami α),
      (∀ x, o.r (o.rr x) = x) → (∀ x, o.rr (o.r x) = x) →
      (∀ x, o.u (o.uu x) = x) → (∀ x, o.uu (o.u x) = x) →
      ∀ (p : α) (e : ℕ), e ≤ 3 →
        ∃ q f, o.opposite_edge p e = some (q, f) ∧
          o.opposite_edge q f = some (p, e)) ∧
    (∀ ss : SimilaritySurfaceData,
      (∀ pe, ss.opposite_edge (ss.opposite_edge pe) = pe) →
      (∀ pp e,
        (ss.edge_matrix (ss.opposite_edge (pp, e)).1
          (ss.opposite_edge (pp, e)).2).mul (ss.edge_matrix pp e) = M2.one ∧
        (ss.edge_matrix pp e).mul
          (ss.edge_matrix (ss.opposite_edge (pp, e)).1
            (ss.opposite_edge (pp, e)).2) = M2.one) →
      ∀ (p : ℕ × M2) (e : ℕ),
        MinimalTranslationCover.opposite_edge ss
          (MinimalTranslationCover.opposite_edge ss p e).1
          (MinimalTranslationCover.opposite_edge ss p e).2 = (p, e)) := by
  constructor
  · intro α o hr hrr hu huu p e he
    interval_cases e
    · exact ⟨o.uu p, 2, rfl,
        by rw [show o.opposite_edge (o.uu p) 2 = some (o.u (o.uu p), 0) from rfl,
          hu p]⟩
    · exact ⟨o.r p, 3, rfl,
        by rw [show o.opposite_edge (o.r p) 3 = some (o.rr (o.r p), 1) from rfl,
          hrr p]⟩
    · exact ⟨o.u p, 0, rfl,
        by rw [show o.opposite_edge (o.u p) 0 = some (o.uu (o.u p), 2) from rfl,
          huu p]⟩
    · exact ⟨o.rr p, 1, rfl,
        by rw [show o.opposite_edge (o.rr p) 1 = some (o.r (o.rr p), 3) from rfl,
          hr p]⟩
  · intro ss hinv hmat p e
    have hopp : ss.opposite_edge ((ss.opposite_edge (p.1, e)).1,
        (ss.opposite_edge (p.1, e)).2) = (p.1, e) := by
      rw [Prod.mk.eta]
      exact hinv (p.1, e)
    obtain ⟨hm1, hm2⟩ := hmat p.1 e
    have hedge : ss.edge_matrix (ss.opposite_edge (p.1, e)).1
        (ss.opposite_edge (p.1, e)).2 = M2.inv (ss.edge_matrix p.1 e) :=
      (M2.inv_eq_of_mul (ss.edge_matrix p.1 e) _ hm2 hm1).symm
    have hone : (ss.edge_matrix p.1 e).mul (M2.inv (ss.edge_matrix p.1 e)) =
        M2.one := by
      rw [M2.inv_eq_of_mul (ss.edge_matrix p.1 e) _ hm2 hm1]
      exact hm2
    have hinv2 : M2.inv (M2.inv (ss.edge_matrix p.1 e)) = ss.edge_matrix p.1 e :=
      M2.inv_eq_of_mul _ _ (hedge ▸ hm1) (hedge ▸ hm2)
    simp only [MinimalTranslationCover.opposite_edge]
    rw [hopp]
    dsimp only
    rw [hedge, hinv2, ← M2.mul_assoc, hone, M2.one_mul, Prod.mk.eta]

/-- Witness for claim C9, at the identity origami over `ℕ` and a trivially-glued base
surface for the minimal translation cover. -/
theorem opposite_edge_involutive_witness :
    (∃ q f, Origami.opposite_edge idOrigami 5 2 = some (q, f) ∧
      Origami.opposite_edge idOrigami q f = some (5, 2)) ∧
    MinimalTranslationCover.opposite_edge trivialCoverBase
      (MinimalTranslationCover.opposite_edge trivialCoverBase (3, M2.one) 7).1
      (MinimalTranslationCover.opposite_edge trivialCoverBase (3, M2.one) 7).2 =
      ((3, M2.one), 7) :=
  ⟨opposite_edge_involutive.1 ℕ idOrigami (fun _ => rfl) (fun _ => rfl)
      (fun _ => rfl) (fun _ => rfl) 5 2 (by decide),
   opposite_edge_involutive.2 trivialCoverBase (fun _ => rfl)
      (fun _ _ => ⟨M2.one_mul M2.one, M2.one_mul M2.one⟩) (3, M2.one) 7⟩
